import Mathlib

/-!
Verification of the DVD-screensaver bounce/speed/logging logic.

The Go program (main.go and the logo-renderer file) is shallowly embedded
here.  Go float64 values are modelled as exact rationals, Go ints as
integers; the per-frame Update method becomes a pure function from a game
state and a sampled keyboard state to a new game state together with the
list of log events it emits.  All definitions follow the Go source
line by line; theorems about them come after the definitions.
-/

set_option autoImplicit false

namespace DVD

/-- Screen width constant from main.go, screenWidth = 800. -/
def screenWidth : ℚ := 800

/-- Screen height constant from main.go, screenHeight = 600. -/
def screenHeight : ℚ := 600

/-- Logo width constant from main.go, logoWidth = 120. -/
def logoWidth : ℚ := 120

/-- Logo height constant from main.go, logoHeight = 60. -/
def logoHeight : ℚ := 60

/-- Maximum number of log lines kept for in-app display, maxLogLines = 10. -/
def maxLogLines : ℕ := 10

/-- Config from main.go: configurable game parameters. -/
structure Config where
  MinSpeed : ℚ
  MaxSpeed : ℚ
  SpeedStep : ℚ
deriving DecidableEq, Repr

/-- An RGBA color as in Go image/color (each channel 0..255). -/
structure RGBA where
  r : ℕ
  g : ℕ
  b : ℕ
  a : ℕ
deriving DecidableEq, Repr

/-- The fixed eight-entry palette assigned to game.logoColors in main. -/
def logoColors : List RGBA :=
  [⟨255, 0, 0, 255⟩, ⟨0, 255, 0, 255⟩, ⟨0, 0, 255, 255⟩, ⟨255, 255, 0, 255⟩,
   ⟨255, 0, 255, 255⟩, ⟨0, 255, 255, 255⟩, ⟨255, 165, 0, 255⟩, ⟨128, 0, 128, 255⟩]

/-- The mutable fields of the Game struct that the per-tick logic touches.
The logger, start time and logo image are external side-effect carriers and
are modelled by the event list that Update returns. -/
structure Game where
  logoX : ℚ
  logoY : ℚ
  velocityX : ℚ
  velocityY : ℚ
  speed : ℚ
  colorIndex : ℕ
  isFullscreen : Bool
  lastFKeyPressed : Bool
  lastEscKeyPressed : Bool
  lastJKeyPressed : Bool
  lastLKeyPressed : Bool
  config : Config
deriving DecidableEq, Repr

/-- The keyboard state sampled during one Update call (ebiten.IsKeyPressed
for keys F, Escape, J and L). -/
structure Input where
  fKey : Bool
  escKey : Bool
  jKey : Bool
  lKey : Bool
deriving DecidableEq, Repr

/-- One structured log line emitted during an Update call.  The bounce
events carry the values the Go code interpolates into the log message:
position, new velocity and new color index at the moment of logging. -/
inductive LogEvent where
  | fullscreenSet (message : String) (enabled : Bool)
  | speedDecreased (oldSpeed newSpeed : ℚ)
  | speedIncreased (oldSpeed newSpeed : ℚ)
  | bounceLeft (x y vx vy : ℚ) (c : ℕ)
  | bounceRight (x y vx vy : ℚ) (c : ℕ)
  | bounceTop (x y vx vy : ℚ) (c : ℕ)
  | bounceBottom (x y vx vy : ℚ) (c : ℕ)
deriving DecidableEq, Repr

/-- changeColor from main.go: advance the color index, wrapping over the
palette; the logo image regeneration is an external effect. -/
def changeColor (g : Game) : Game :=
  { g with colorIndex := (g.colorIndex + 1) % logoColors.length }

/-- setFullscreen from main.go: record the new fullscreen state and emit
the log line; the actual window call is an external effect. -/
def setFullscreen (g : Game) (fullscreen : Bool) (message : String) :
    Game × LogEvent :=
  ({ g with isFullscreen := fullscreen }, .fullscreenSet message fullscreen)

/-- increaseSpeed from main.go: add SpeedStep, clamp at MaxSpeed, and
rescale the velocity by newSpeed/oldSpeed when the speed actually changed
and the old speed was positive. -/
def increaseSpeed (g : Game) : Game :=
  let oldSpeed := g.speed
  let s1 := g.speed + g.config.SpeedStep
  let s2 := if s1 > g.config.MaxSpeed then g.config.MaxSpeed else s1
  if oldSpeed > 0 ∧ s2 ≠ oldSpeed then
    { g with speed := s2
             velocityX := g.velocityX * (s2 / oldSpeed)
             velocityY := g.velocityY * (s2 / oldSpeed) }
  else
    { g with speed := s2 }

/-- decreaseSpeed from main.go: subtract SpeedStep, clamp at MinSpeed, and
rescale the velocity by newSpeed/oldSpeed when the speed actually changed
and the old speed was positive. -/
def decreaseSpeed (g : Game) : Game :=
  let oldSpeed := g.speed
  let s1 := g.speed - g.config.SpeedStep
  let s2 := if s1 < g.config.MinSpeed then g.config.MinSpeed else s1
  if oldSpeed > 0 ∧ s2 ≠ oldSpeed then
    { g with speed := s2
             velocityX := g.velocityX * (s2 / oldSpeed)
             velocityY := g.velocityY * (s2 / oldSpeed) }
  else
    { g with speed := s2 }

/-- Position integration block of Update (main.go lines 95-97):
logo position advances by the velocity. -/
def integrateStep (g : Game) : Game :=
  { g with logoX := g.logoX + g.velocityX, logoY := g.logoY + g.velocityY }

/-- Fullscreen-control block of Update (main.go lines 102-117): the F key
toggles fullscreen on its press transition, the Escape key exits fullscreen
on its press transition while fullscreen, and the key latches are stored. -/
def fullscreenStep (g : Game) (inp : Input) : Game × List LogEvent :=
  let fKeyPressed := inp.fKey
  let escKeyPressed := inp.escKey
  let r1 :=
    if fKeyPressed && !g.lastFKeyPressed then
      let s := setFullscreen g (!g.isFullscreen) "Fullscreen toggled"
      (s.1, [s.2])
    else (g, ([] : List LogEvent))
  let r2 :=
    if escKeyPressed && !r1.1.lastEscKeyPressed && r1.1.isFullscreen then
      let s := setFullscreen r1.1 false "Fullscreen exited with ESC key"
      (s.1, r1.2 ++ [s.2])
    else r1
  ({ r2.1 with lastFKeyPressed := fKeyPressed
               lastEscKeyPressed := escKeyPressed }, r2.2)

/-- Speed-control block of Update (main.go lines 119-141): the J key
triggers decreaseSpeed on its press transition, the L key triggers
increaseSpeed on its press transition, and a log line is emitted only when
the speed actually changed. -/
def speedStep (g : Game) (inp : Input) : Game × List LogEvent :=
  let jKeyPressed := inp.jKey
  let lKeyPressed := inp.lKey
  let rj :=
    if jKeyPressed && !g.lastJKeyPressed then
      let oldSpeed := g.speed
      let g' := decreaseSpeed g
      if g'.speed ≠ oldSpeed then
        (g', [LogEvent.speedDecreased oldSpeed g'.speed])
      else (g', [])
    else (g, ([] : List LogEvent))
  let gj := { rj.1 with lastJKeyPressed := jKeyPressed }
  let rl :=
    if lKeyPressed && !gj.lastLKeyPressed then
      let oldSpeed := gj.speed
      let g' := increaseSpeed gj
      if g'.speed ≠ oldSpeed then
        (g', [LogEvent.speedIncreased oldSpeed g'.speed])
      else (g', [])
    else (gj, ([] : List LogEvent))
  ({ rl.1 with lastLKeyPressed := lKeyPressed }, rj.2 ++ rl.2)

/-- Horizontal edge-collision block of Update (main.go lines 144-154):
left edge and right edge are mutually exclusive if/else-if branches; on a
hit the horizontal velocity is negated, the color advances, and a bounce
log line with the current values is emitted. -/
def collideX (g : Game) : Game × List LogEvent :=
  if g.logoX ≤ 0 then
    let g1 := changeColor { g with velocityX := -g.velocityX }
    (g1, [.bounceLeft g1.logoX g1.logoY g1.velocityX g1.velocityY g1.colorIndex])
  else if g.logoX + logoWidth ≥ screenWidth then
    let g1 := changeColor { g with velocityX := -g.velocityX }
    (g1, [.bounceRight g1.logoX g1.logoY g1.velocityX g1.velocityY g1.colorIndex])
  else (g, [])

/-- Vertical edge-collision block of Update (main.go lines 156-166):
top edge and bottom edge are mutually exclusive if/else-if branches; on a
hit the vertical velocity is negated, the color advances, and a bounce log
line with the current values is emitted. -/
def collideY (g : Game) : Game × List LogEvent :=
  if g.logoY ≤ 0 then
    let g1 := changeColor { g with velocityY := -g.velocityY }
    (g1, [.bounceTop g1.logoX g1.logoY g1.velocityX g1.velocityY g1.colorIndex])
  else if g.logoY + logoHeight ≥ screenHeight then
    let g1 := changeColor { g with velocityY := -g.velocityY }
    (g1, [.bounceBottom g1.logoX g1.logoY g1.velocityX g1.velocityY g1.colorIndex])
  else (g, [])

/-- Both edge-collision blocks of Update in source order: the horizontal
checks run first, then the vertical checks on the resulting state. -/
def collideStep (g : Game) : Game × List LogEvent :=
  let rx := collideX g
  let ry := collideY rx.1
  (ry.1, rx.2 ++ ry.2)

/-- Update from main.go (lines 94-168), as the sequence of its four blocks
in source order: position integration, fullscreen-key handling, speed-key
handling, then the edge-collision checks.  The returned list is the log
lines in emission order. -/
def Update (g : Game) (inp : Input) : Game × List LogEvent :=
  let g1 := integrateStep g
  let r2 := fullscreenStep g1 inp
  let r3 := speedStep r2.1 inp
  let r4 := collideStep r3.1
  (r4.1, r2.2 ++ r3.2 ++ r4.2)

/-- LogWriter.Write from main.go (lines 77-91): before appending a message
to the in-app log buffer, drop the oldest entry when the buffer already
holds maxLogLines messages. -/
def logWrite (buf : List String) (p : String) : List String :=
  let buf1 := if maxLogLines ≤ buf.length then buf.drop 1 else buf
  buf1 ++ [p]

end DVD

namespace DVD

/-- The literal text drawn by CreateDVDLogo. -/
def dvdText : String := "DVD"

/-- Advance width in pixels of one glyph of the fixed bitmap font
basicfont.Face7x13 used by CreateDVDLogo (the face advances 7 pixels per
glyph). -/
def face7x13Advance : ℤ := 7

/-- Ascent in pixels of basicfont.Face7x13 as reported by the GoXFace
metrics used in CreateDVDLogo. -/
def face7x13Ascent : ℤ := 11

/-- Advance width of a string under basicfont.Face7x13: the face is
monospace, so the advance is 7 pixels per character. -/
def textAdvance (s : String) : ℤ := face7x13Advance * s.length

/-- The geometry computed by CreateDVDLogo: where the main text and its
shadow copy are drawn inside the width times height bitmap. -/
structure LogoPlacement where
  textX : ℤ
  textY : ℤ
  shadowX : ℤ
  shadowY : ℤ
deriving DecidableEq, Repr

/-- Placement logic of CreateDVDLogo (logo-renderer source file): the text
advance of the string is measured, the text is horizontally centered with
textX = (width - textAdvance) / 2 in Go integer division, vertically
placed at textY = height/2 + ascent/2, and the shadow copy is drawn at
(textX+1, textY+1) before the main copy. -/
def CreateDVDLogoPlacement (width height : ℤ) : LogoPlacement :=
  let textWidth := textAdvance dvdText
  let textX := (width - textWidth).tdiv 2
  let textY := height.tdiv 2 + face7x13Ascent.tdiv 2
  ⟨textX, textY, textX + 1, textY + 1⟩

end DVD

namespace DVD

/-- Events produced by the keyboard-handling blocks of Update. -/
def isInputEvent : LogEvent → Bool
  | .fullscreenSet _ _ => true
  | .speedDecreased _ _ => true
  | .speedIncreased _ _ => true
  | _ => false

/-- Events produced by the horizontal edge-collision block. -/
def isHorizontalBounce : LogEvent → Bool
  | .bounceLeft _ _ _ _ _ => true
  | .bounceRight _ _ _ _ _ => true
  | _ => false

/-- Events produced by the vertical edge-collision block. -/
def isVerticalBounce : LogEvent → Bool
  | .bounceTop _ _ _ _ _ => true
  | .bounceBottom _ _ _ _ _ => true
  | _ => false

/-- Any bounce event, horizontal or vertical. -/
def isBounceEvent (e : LogEvent) : Bool := isHorizontalBounce e || isVerticalBounce e

/-- Recognizer for the left-edge bounce log line. -/
def isBounceLeftEv : LogEvent → Bool
  | .bounceLeft _ _ _ _ _ => true
  | _ => false

/-- Recognizer for the right-edge bounce log line. -/
def isBounceRightEv : LogEvent → Bool
  | .bounceRight _ _ _ _ _ => true
  | _ => false

/-- Recognizer for the top-edge bounce log line. -/
def isBounceTopEv : LogEvent → Bool
  | .bounceTop _ _ _ _ _ => true
  | _ => false

/-- Recognizer for the bottom-edge bounce log line. -/
def isBounceBottomEv : LogEvent → Bool
  | .bounceBottom _ _ _ _ _ => true
  | _ => false

/-- Number of bounce log lines in an event list. -/
def bounceCount (es : List LogEvent) : ℕ := es.countP (fun e => isBounceEvent e)

/-- Number of horizontal bounce log lines in an event list. -/
def horizontalBounceCount (es : List LogEvent) : ℕ :=
  es.countP (fun e => isHorizontalBounce e)

/-- Number of vertical bounce log lines in an event list. -/
def verticalBounceCount (es : List LogEvent) : ℕ :=
  es.countP (fun e => isVerticalBounce e)

lemma fullscreenStep_preserves (g : Game) (i : Input) :
    (fullscreenStep g i).1.logoX = g.logoX ∧ (fullscreenStep g i).1.logoY = g.logoY ∧
    (fullscreenStep g i).1.velocityX = g.velocityX ∧
    (fullscreenStep g i).1.velocityY = g.velocityY ∧
    (fullscreenStep g i).1.speed = g.speed ∧
    (fullscreenStep g i).1.colorIndex = g.colorIndex ∧
    (fullscreenStep g i).1.config = g.config ∧
    (fullscreenStep g i).1.lastJKeyPressed = g.lastJKeyPressed ∧
    (fullscreenStep g i).1.lastLKeyPressed = g.lastLKeyPressed := by
  unfold fullscreenStep setFullscreen
  dsimp only
  split <;> split <;> simp

lemma fullscreenStep_events (g : Game) (i : Input) :
    (fullscreenStep g i).2.all isInputEvent = true := by
  unfold fullscreenStep setFullscreen
  dsimp only
  split <;> split <;> simp [isInputEvent]

lemma increaseSpeed_preserves (g : Game) :
    (increaseSpeed g).logoX = g.logoX ∧ (increaseSpeed g).logoY = g.logoY ∧
    (increaseSpeed g).colorIndex = g.colorIndex ∧
    (increaseSpeed g).config = g.config ∧
    (increaseSpeed g).lastJKeyPressed = g.lastJKeyPressed ∧
    (increaseSpeed g).lastLKeyPressed = g.lastLKeyPressed := by
  unfold increaseSpeed
  dsimp only
  split <;> split <;> simp

lemma decreaseSpeed_preserves (g : Game) :
    (decreaseSpeed g).logoX = g.logoX ∧ (decreaseSpeed g).logoY = g.logoY ∧
    (decreaseSpeed g).colorIndex = g.colorIndex ∧
    (decreaseSpeed g).config = g.config ∧
    (decreaseSpeed g).lastJKeyPressed = g.lastJKeyPressed ∧
    (decreaseSpeed g).lastLKeyPressed = g.lastLKeyPressed := by
  unfold decreaseSpeed
  dsimp only
  split <;> split <;> simp

lemma speedStep_preserves (g : Game) (i : Input) :
    (speedStep g i).1.logoX = g.logoX ∧ (speedStep g i).1.logoY = g.logoY ∧
    (speedStep g i).1.colorIndex = g.colorIndex ∧
    (speedStep g i).1.config = g.config := by
  unfold speedStep
  dsimp only
  repeat' split
  all_goals simp [increaseSpeed_preserves, decreaseSpeed_preserves]

lemma speedStep_events (g : Game) (i : Input) :
    (speedStep g i).2.all isInputEvent = true := by
  unfold speedStep
  dsimp only
  repeat' split
  all_goals simp [isInputEvent]

end DVD

namespace DVD

lemma collideX_left (g : Game) (h : g.logoX ≤ 0) :
    collideX g = (changeColor { g with velocityX := -g.velocityX },
      [.bounceLeft g.logoX g.logoY (-g.velocityX) g.velocityY
        ((g.colorIndex + 1) % logoColors.length)]) := by
  unfold collideX
  rw [if_pos h]
  simp [changeColor]

lemma collideX_right (g : Game) (h1 : ¬ g.logoX ≤ 0)
    (h2 : g.logoX + logoWidth ≥ screenWidth) :
    collideX g = (changeColor { g with velocityX := -g.velocityX },
      [.bounceRight g.logoX g.logoY (-g.velocityX) g.velocityY
        ((g.colorIndex + 1) % logoColors.length)]) := by
  unfold collideX
  rw [if_neg h1, if_pos h2]
  simp [changeColor]

lemma collideX_none (g : Game) (h1 : ¬ g.logoX ≤ 0)
    (h2 : ¬ g.logoX + logoWidth ≥ screenWidth) :
    collideX g = (g, []) := by
  unfold collideX
  rw [if_neg h1, if_neg h2]

lemma collideY_top (g : Game) (h : g.logoY ≤ 0) :
    collideY g = (changeColor { g with velocityY := -g.velocityY },
      [.bounceTop g.logoX g.logoY g.velocityX (-g.velocityY)
        ((g.colorIndex + 1) % logoColors.length)]) := by
  unfold collideY
  rw [if_pos h]
  simp [changeColor]

lemma collideY_bottom (g : Game) (h1 : ¬ g.logoY ≤ 0)
    (h2 : g.logoY + logoHeight ≥ screenHeight) :
    collideY g = (changeColor { g with velocityY := -g.velocityY },
      [.bounceBottom g.logoX g.logoY g.velocityX (-g.velocityY)
        ((g.colorIndex + 1) % logoColors.length)]) := by
  unfold collideY
  rw [if_neg h1, if_pos h2]
  simp [changeColor]

lemma collideY_none (g : Game) (h1 : ¬ g.logoY ≤ 0)
    (h2 : ¬ g.logoY + logoHeight ≥ screenHeight) :
    collideY g = (g, []) := by
  unfold collideY
  rw [if_neg h1, if_neg h2]

lemma collideX_position (g : Game) :
    (collideX g).1.logoX = g.logoX ∧ (collideX g).1.logoY = g.logoY ∧
    (collideX g).1.velocityY = g.velocityY := by
  unfold collideX
  dsimp only
  split <;> [skip; split] <;> simp [changeColor]

lemma collideY_position (g : Game) :
    (collideY g).1.logoX = g.logoX ∧ (collideY g).1.logoY = g.logoY ∧
    (collideY g).1.velocityX = g.velocityX := by
  unfold collideY
  dsimp only
  split <;> [skip; split] <;> simp [changeColor]

lemma collideX_events (g : Game) :
    (collideX g).2.all isHorizontalBounce = true ∧ (collideX g).2.length ≤ 1 := by
  unfold collideX
  dsimp only
  split <;> [skip; split] <;> simp [isHorizontalBounce]

lemma collideY_events (g : Game) :
    (collideY g).2.all isVerticalBounce = true ∧ (collideY g).2.length ≤ 1 := by
  unfold collideY
  dsimp only
  split <;> [skip; split] <;> simp [isVerticalBounce]

lemma increaseSpeed_speed (g : Game) :
    (increaseSpeed g).speed =
      if g.speed + g.config.SpeedStep > g.config.MaxSpeed then g.config.MaxSpeed
      else g.speed + g.config.SpeedStep := by
  unfold increaseSpeed
  dsimp only
  split <;> split <;> simp_all

lemma decreaseSpeed_speed (g : Game) :
    (decreaseSpeed g).speed =
      if g.speed - g.config.SpeedStep < g.config.MinSpeed then g.config.MinSpeed
      else g.speed - g.config.SpeedStep := by
  unfold decreaseSpeed
  dsimp only
  split <;> split <;> simp_all

lemma updateState_eq (g : Game) (i : Input) :
    (Update g i).1 =
      (collideY (collideX (speedStep (fullscreenStep (integrateStep g) i).1 i).1).1).1 := rfl

lemma updateEvents_eq (g : Game) (i : Input) :
    (Update g i).2 =
      (fullscreenStep (integrateStep g) i).2 ++
      (speedStep (fullscreenStep (integrateStep g) i).1 i).2 ++
      ((collideX (speedStep (fullscreenStep (integrateStep g) i).1 i).1).2 ++
       (collideY (collideX (speedStep (fullscreenStep (integrateStep g) i).1 i).1).1).2) := rfl

lemma update_logoX (g : Game) (i : Input) :
    (Update g i).1.logoX = g.logoX + g.velocityX := by
  rw [updateState_eq]
  rw [(collideY_position _).1, (collideX_position _).1,
      (speedStep_preserves _ _).1, (fullscreenStep_preserves _ _).1]
  rfl

lemma update_logoY (g : Game) (i : Input) :
    (Update g i).1.logoY = g.logoY + g.velocityY := by
  rw [updateState_eq]
  rw [(collideY_position _).2.1, (collideX_position _).2.1,
      (speedStep_preserves _ _).2.1, (fullscreenStep_preserves _ _).2.1]
  rfl

end DVD

namespace DVD

/-- C1: starting a tick at position (0,0) with velocity (-1,-1) and no keys
pressed, a single Update call produces velocity (+1,+1), emits exactly two
bounce log lines (left edge first, then top edge), and advances the color
index twice, once per axis, without deduplication. -/
theorem corner_tick_double_bounce (g : Game) (i : Input)
    (hx : g.logoX = 0) (hy : g.logoY = 0)
    (hvx : g.velocityX = -1) (hvy : g.velocityY = -1)
    (hi : i = ⟨false, false, false, false⟩) :
    (Update g i).1.velocityX = 1 ∧ (Update g i).1.velocityY = 1 ∧
    (Update g i).2 =
      [.bounceLeft (-1) (-1) 1 (-1) ((g.colorIndex + 1) % logoColors.length),
       .bounceTop (-1) (-1) 1 1 ((g.colorIndex + 2) % logoColors.length)] ∧
    (Update g i).1.colorIndex = (g.colorIndex + 2) % logoColors.length := by
  subst hi
  have h1 : ((g.colorIndex + 1) % logoColors.length + 1) % logoColors.length =
      (g.colorIndex + 2) % logoColors.length := by
    simp only [logoColors, List.length]
    omega
  norm_num [Update, integrateStep, fullscreenStep, speedStep, collideStep,
    collideX, collideY, changeColor, setFullscreen, hx, hy, hvx, hvy,
    logoWidth, logoHeight, screenWidth, screenHeight, h1]

end DVD

namespace DVD

/-- Concrete corner-hit state used to instantiate the corner-tick theorem. -/
def c1State : Game :=
  ⟨0, 0, -1, -1, 3, 0, false, false, false, false, false, ⟨1/2, 10, 1/2⟩⟩

theorem corner_tick_double_bounce_witness :
    (Update c1State ⟨false, false, false, false⟩).1.velocityX = 1 ∧
    (Update c1State ⟨false, false, false, false⟩).1.velocityY = 1 ∧
    (Update c1State ⟨false, false, false, false⟩).2 =
      [.bounceLeft (-1) (-1) 1 (-1) ((c1State.colorIndex + 1) % logoColors.length),
       .bounceTop (-1) (-1) 1 1 ((c1State.colorIndex + 2) % logoColors.length)] ∧
    (Update c1State ⟨false, false, false, false⟩).1.colorIndex =
      (c1State.colorIndex + 2) % logoColors.length :=
  corner_tick_double_bounce c1State ⟨false, false, false, false⟩ rfl rfl rfl rfl rfl

/-- C5: when the horizontal collision check runs on a state with x at or past
the left edge, the horizontal velocity is negated, so whenever it was nonzero
it ends up with the opposite sign. -/
theorem left_edge_reflects_velocity (g : Game) (h : g.logoX ≤ 0) :
    (collideX g).1.velocityX = -g.velocityX ∧
    (g.velocityX ≠ 0 → (collideX g).1.velocityX * g.velocityX < 0) := by
  rw [collideX_left g h]
  constructor
  · simp [changeColor]
  · intro hv
    simp only [changeColor]
    have : (-g.velocityX) * g.velocityX < 0 := by
      rcases lt_or_gt_of_ne hv with hneg | hpos
      · nlinarith
      · nlinarith
    simpa using this

/-- Concrete left-edge state used to instantiate the reflection theorem. -/
def c5State : Game :=
  ⟨-2, 300, -3, 2, 3, 4, false, false, false, false, false, ⟨1/2, 10, 1/2⟩⟩

theorem left_edge_reflects_velocity_witness :
    (collideX c5State).1.velocityX = -c5State.velocityX ∧
    (collideX c5State).1.velocityX * c5State.velocityX < 0 :=
  ⟨(left_edge_reflects_velocity c5State (by norm_num [c5State])).1,
   (left_edge_reflects_velocity c5State (by norm_num [c5State])).2
     (by norm_num [c5State])⟩

end DVD

namespace DVD

/-- C9 counterexample: in a 200 by 100 bitmap the text DVD (advance 21 under
the fixed Face7x13 font) is drawn at textX = (200 - 21) / 2 = 89, which is
not within one pixel of x = 40 as the claim states. -/
theorem logo_text_x_counterexample :
    (CreateDVDLogoPlacement 200 100).textX = 89 ∧
    ¬ ((CreateDVDLogoPlacement 200 100).textX - 40).natAbs ≤ 1 := by
  constructor
  · decide
  · decide

/-- C9 amended: CreateDVDLogo places the text at
textX = (width - textAdvance) / 2 and textY = height/2 + ascent/2 using the
fixed font metrics (advance 21 for DVD, ascent 11); for a 200 by 100 bitmap
this is x = 89 (within one pixel of the exact center offset (200-21)/2) and
y = 55 = 100/2 + 11/2, with the shadow copy one pixel down and right. -/
theorem logo_text_placement (w h : ℤ) :
    (CreateDVDLogoPlacement 200 100).textX = 89 ∧
    (CreateDVDLogoPlacement 200 100).textY = 55 ∧
    (2 * (CreateDVDLogoPlacement w h).textX + textAdvance dvdText - w).natAbs ≤ 1 ∧
    (CreateDVDLogoPlacement w h).shadowX = (CreateDVDLogoPlacement w h).textX + 1 ∧
    (CreateDVDLogoPlacement w h).shadowY = (CreateDVDLogoPlacement w h).textY + 1 := by
  refine ⟨by decide, by decide, ?_, rfl, rfl⟩
  have hadv : textAdvance dvdText = 21 := by decide
  simp only [CreateDVDLogoPlacement, hadv]
  have hd : (2 * (w - 21).tdiv 2 + 21 - w) = 2 * (w - 21).tdiv 2 - (w - 21) := by ring
  rw [hd]
  cases hw : w - 21 with
  | ofNat n => simp only [Int.tdiv, Int.ofNat_eq_coe]; omega
  | negSucc n => simp only [Int.tdiv, Int.ofNat_eq_coe, Int.negSucc_eq]; omega

end DVD

namespace DVD

/-- A speed-adjust event: an edge-triggered press of the L key (increase)
or the J key (decrease). -/
inductive SpeedEvent where
  | inc
  | dec
deriving DecidableEq, Repr

/-- Apply one speed-adjust event to the game state, as Update does on the
corresponding key press transition. -/
def applySpeedEvent (g : Game) : SpeedEvent → Game
  | .inc => increaseSpeed g
  | .dec => decreaseSpeed g

lemma applySpeedEvent_config (g : Game) (e : SpeedEvent) :
    (applySpeedEvent g e).config = g.config := by
  cases e <;>
    simp [applySpeedEvent, increaseSpeed_preserves, decreaseSpeed_preserves]

lemma applySpeedEvent_bounds (g : Game) (e : SpeedEvent)
    (h1 : g.config.MinSpeed ≤ g.speed) (h2 : g.speed ≤ g.config.MaxSpeed)
    (h3 : 0 ≤ g.config.SpeedStep) (h4 : g.config.MinSpeed ≤ g.config.MaxSpeed) :
    g.config.MinSpeed ≤ (applySpeedEvent g e).speed ∧
    (applySpeedEvent g e).speed ≤ g.config.MaxSpeed := by
  cases e
  · rw [applySpeedEvent, increaseSpeed_speed]
    split <;> constructor <;> linarith
  · rw [applySpeedEvent, decreaseSpeed_speed]
    split <;> constructor <;> linarith

/-- C2: for every sequence of speed-increase and speed-decrease events applied
to a state whose speed lies within the configured bounds, and whose
configuration has a nonnegative step and ordered bounds (as the shipped
configuration 0.5 le 10.0 with step 0.5 does), the speed stays within
MinSpeed and MaxSpeed inclusive at all times. -/
theorem speed_stays_in_bounds (es : List SpeedEvent) (g : Game)
    (h1 : g.config.MinSpeed ≤ g.speed) (h2 : g.speed ≤ g.config.MaxSpeed)
    (h3 : 0 ≤ g.config.SpeedStep) (h4 : g.config.MinSpeed ≤ g.config.MaxSpeed) :
    g.config.MinSpeed ≤ (es.foldl applySpeedEvent g).speed ∧
    (es.foldl applySpeedEvent g).speed ≤ g.config.MaxSpeed := by
  induction es generalizing g with
  | nil => exact ⟨h1, h2⟩
  | cons e es ih =>
    have hb := applySpeedEvent_bounds g e h1 h2 h3 h4
    have hc := applySpeedEvent_config g e
    have := ih (applySpeedEvent g e) (hc ▸ hb.1) (hc ▸ hb.2) (hc ▸ h3) (hc ▸ h4)
    simpa [List.foldl_cons, hc] using this

/-- Concrete state with the shipped configuration used to instantiate the
speed-bounds theorem. -/
def c2State : Game :=
  ⟨100, 100, 2, 1, 3, 0, false, false, false, false, false, ⟨1/2, 10, 1/2⟩⟩

theorem speed_stays_in_bounds_witness :
    c2State.config.MinSpeed ≤
      ([SpeedEvent.dec, .dec, .inc, .dec, .dec, .dec, .dec, .dec].foldl
        applySpeedEvent c2State).speed ∧
    ([SpeedEvent.dec, .dec, .inc, .dec, .dec, .dec, .dec, .dec].foldl
        applySpeedEvent c2State).speed ≤ c2State.config.MaxSpeed :=
  speed_stays_in_bounds _ c2State (by norm_num [c2State]) (by norm_num [c2State])
    (by norm_num [c2State]) (by norm_num [c2State])

end DVD

namespace DVD

lemma decreaseSpeed_at_min (g : Game) (hmin : g.speed = g.config.MinSpeed)
    (hstep : 0 ≤ g.config.SpeedStep) :
    (decreaseSpeed g).speed = g.speed ∧
    (decreaseSpeed g).velocityX = g.velocityX ∧
    (decreaseSpeed g).velocityY = g.velocityY := by
  unfold decreaseSpeed
  dsimp only
  rcases eq_or_lt_of_le hstep with hz | hpos
  · have hcond : ¬ g.speed - g.config.SpeedStep < g.config.MinSpeed := by
      rw [← hz]
      simp [hmin]
    rw [if_neg hcond]
    have hne : ¬ (0 < g.speed ∧ g.speed - g.config.SpeedStep ≠ g.speed) := by
      rw [← hz]
      simp
    rw [if_neg hne]
    constructor
    · simp [← hz]
    · constructor <;> rfl
  · have hcond : g.speed - g.config.SpeedStep < g.config.MinSpeed := by
      rw [hmin]
      linarith
    rw [if_pos hcond]
    have hne : ¬ (0 < g.speed ∧ g.config.MinSpeed ≠ g.speed) := by
      simp [hmin]
    rw [if_neg hne]
    constructor
    · simp [hmin]
    · constructor <;> rfl

/-- C7: when the speed already sits at MinSpeed and the step is nonnegative
(as in the shipped configuration), a speed-decrease event (J pressed on its
press transition, L not pressed) leaves the speed and both velocity
components unchanged, and the speed-control block emits no log line because
the clamped new value equals the old one. -/
theorem decrease_at_min_speed_noop (g : Game) (i : Input)
    (hmin : g.speed = g.config.MinSpeed) (hstep : 0 ≤ g.config.SpeedStep)
    (hj : i.jKey = true) (hlastj : g.lastJKeyPressed = false)
    (hl : i.lKey = false) :
    (speedStep g i).1.speed = g.speed ∧
    (speedStep g i).1.velocityX = g.velocityX ∧
    (speedStep g i).1.velocityY = g.velocityY ∧
    (speedStep g i).2 = [] := by
  have hd := decreaseSpeed_at_min g hmin hstep
  unfold speedStep
  dsimp only
  rw [hj, hlastj, hl]
  simp [hd.1, hd.2.1, hd.2.2]

/-- Concrete state resting at MinSpeed used to instantiate the no-op
decrease theorem. -/
def c7State : Game :=
  ⟨100, 100, 1/3, -1/3, 1/2, 0, false, false, false, false, false, ⟨1/2, 10, 1/2⟩⟩

theorem decrease_at_min_speed_noop_witness :
    (speedStep c7State ⟨false, false, true, false⟩).1.speed = c7State.speed ∧
    (speedStep c7State ⟨false, false, true, false⟩).1.velocityX = c7State.velocityX ∧
    (speedStep c7State ⟨false, false, true, false⟩).1.velocityY = c7State.velocityY ∧
    (speedStep c7State ⟨false, false, true, false⟩).2 = [] :=
  decrease_at_min_speed_noop c7State ⟨false, false, true, false⟩
    (by norm_num [c7State]) (by norm_num [c7State]) rfl rfl rfl

end DVD

namespace DVD

lemma increaseSpeed_scales (g : Game) :
    (increaseSpeed g).speed = g.speed ∨
    ((increaseSpeed g).velocityX = g.velocityX * ((increaseSpeed g).speed / g.speed) ∧
     (increaseSpeed g).velocityY = g.velocityY * ((increaseSpeed g).speed / g.speed)) ∨
    ¬ 0 < g.speed := by
  unfold increaseSpeed
  dsimp only
  split <;> split
  · exact Or.inr (Or.inl ⟨rfl, rfl⟩)
  · rename_i hc
    rcases not_and_or.mp hc with hp | hs
    · exact Or.inr (Or.inr hp)
    · exact Or.inl (not_not.mp hs)
  · exact Or.inr (Or.inl ⟨rfl, rfl⟩)
  · rename_i hc
    rcases not_and_or.mp hc with hp | hs
    · exact Or.inr (Or.inr hp)
    · exact Or.inl (not_not.mp hs)

lemma decreaseSpeed_scales (g : Game) :
    (decreaseSpeed g).speed = g.speed ∨
    ((decreaseSpeed g).velocityX = g.velocityX * ((decreaseSpeed g).speed / g.speed) ∧
     (decreaseSpeed g).velocityY = g.velocityY * ((decreaseSpeed g).speed / g.speed)) ∨
    ¬ 0 < g.speed := by
  unfold decreaseSpeed
  dsimp only
  split <;> split
  · exact Or.inr (Or.inl ⟨rfl, rfl⟩)
  · rename_i hc
    rcases not_and_or.mp hc with hp | hs
    · exact Or.inr (Or.inr hp)
    · exact Or.inl (not_not.mp hs)
  · exact Or.inr (Or.inl ⟨rfl, rfl⟩)
  · rename_i hc
    rcases not_and_or.mp hc with hp | hs
    · exact Or.inr (Or.inr hp)
    · exact Or.inl (not_not.mp hs)

lemma increaseSpeed_speed_pos (g : Game) (hmin : 0 < g.config.MinSpeed)
    (hminmax : g.config.MinSpeed ≤ g.config.MaxSpeed)
    (hstep : 0 ≤ g.config.SpeedStep) (hpos : 0 < g.speed) :
    0 < (increaseSpeed g).speed := by
  rw [increaseSpeed_speed]
  split <;> linarith

lemma decreaseSpeed_speed_pos (g : Game) (hmin : 0 < g.config.MinSpeed)
    (hpos : 0 < g.speed) :
    0 < (decreaseSpeed g).speed := by
  rw [decreaseSpeed_speed]
  split
  · linarith
  · next hc => linarith [not_lt.mp hc]

/-- C6: a speed change that actually alters a positive speed (under the
shipped configuration's positive MinSpeed, ordered bounds and nonnegative
step) multiplies both velocity components by the same positive ratio
newSpeed/oldSpeed, so the direction angle atan2(vy, vx) is preserved
exactly in this real-number model, in particular to within floating-point
rounding error. -/
theorem speed_change_preserves_direction (g : Game)
    (hmin : 0 < g.config.MinSpeed) (hminmax : g.config.MinSpeed ≤ g.config.MaxSpeed)
    (hstep : 0 ≤ g.config.SpeedStep) (hpos : 0 < g.speed) :
    ((increaseSpeed g).speed ≠ g.speed →
      0 < (increaseSpeed g).speed / g.speed ∧
      (increaseSpeed g).velocityX = g.velocityX * ((increaseSpeed g).speed / g.speed) ∧
      (increaseSpeed g).velocityY = g.velocityY * ((increaseSpeed g).speed / g.speed)) ∧
    ((decreaseSpeed g).speed ≠ g.speed →
      0 < (decreaseSpeed g).speed / g.speed ∧
      (decreaseSpeed g).velocityX = g.velocityX * ((decreaseSpeed g).speed / g.speed) ∧
      (decreaseSpeed g).velocityY = g.velocityY * ((decreaseSpeed g).speed / g.speed)) := by
  constructor
  · intro hne
    refine ⟨div_pos (increaseSpeed_speed_pos g hmin hminmax hstep hpos) hpos, ?_⟩
    rcases increaseSpeed_scales g with h | h | h
    · exact absurd h hne
    · exact h
    · exact absurd hpos h
  · intro hne
    refine ⟨div_pos (decreaseSpeed_speed_pos g hmin hpos) hpos, ?_⟩
    rcases decreaseSpeed_scales g with h | h | h
    · exact absurd h hne
    · exact h
    · exact absurd hpos h

/-- Concrete state with a changeable speed used to instantiate the
direction-preservation theorem. -/
def c6State : Game :=
  ⟨100, 100, 2, -1, 3, 0, false, false, false, false, false, ⟨1/2, 10, 1/2⟩⟩

theorem speed_change_preserves_direction_witness :
    0 < (increaseSpeed c6State).speed / c6State.speed ∧
    (increaseSpeed c6State).velocityX =
      c6State.velocityX * ((increaseSpeed c6State).speed / c6State.speed) ∧
    (increaseSpeed c6State).velocityY =
      c6State.velocityY * ((increaseSpeed c6State).speed / c6State.speed) :=
  (speed_change_preserves_direction c6State (by norm_num [c6State])
      (by norm_num [c6State]) (by norm_num [c6State]) (by norm_num [c6State])).1
    (by norm_num [increaseSpeed_speed, c6State])

end DVD

namespace DVD

lemma logWrite_full (buf : List String) (p : String)
    (h : maxLogLines ≤ buf.length) :
    logWrite buf p = buf.drop 1 ++ [p] := by
  unfold logWrite
  rw [if_pos h]

lemma logWrite_not_full (buf : List String) (p : String)
    (h : ¬ maxLogLines ≤ buf.length) :
    logWrite buf p = buf ++ [p] := by
  unfold logWrite
  rw [if_neg h]

lemma foldl_logWrite_eq (msgs : List String) :
    msgs.foldl logWrite [] = msgs.drop (msgs.length - maxLogLines) := by
  induction msgs using List.reverseRecOn with
  | nil => rfl
  | append_singleton ms m ih =>
    rw [List.foldl_append, List.foldl_cons, List.foldl_nil, ih]
    by_cases h : maxLogLines ≤ ms.length
    · rw [logWrite_full _ _ (by rw [List.length_drop]; omega)]
      rw [List.drop_drop]
      rw [List.length_append, List.length_singleton]
      have hk : ms.length + 1 - maxLogLines ≤ ms.length := by
        simp only [maxLogLines]
        omega
      rw [List.drop_append_of_le_length hk]
      have hidx : ms.length - maxLogLines + 1 = ms.length + 1 - maxLogLines := by
        simp only [maxLogLines] at h ⊢
        omega
      rw [hidx]
    · have h1 : ms.length - maxLogLines = 0 := by omega
      have h2 : (ms ++ [m]).length - maxLogLines = 0 := by
        rw [List.length_append, List.length_singleton]
        omega
      rw [h1, h2, List.drop_zero, List.drop_zero, logWrite_not_full _ _ h]

/-- C8: starting from the empty in-app log buffer, any sequence of writes
leaves at most maxLogLines entries, the buffer is exactly the most recent
messages in arrival order, and a write into a full buffer first evicts the
oldest entry (FIFO). -/
theorem log_buffer_bounded_fifo (msgs : List String) :
    (msgs.foldl logWrite []).length ≤ maxLogLines ∧
    msgs.foldl logWrite [] = msgs.drop (msgs.length - maxLogLines) ∧
    (∀ buf p, maxLogLines ≤ buf.length → logWrite buf p = buf.drop 1 ++ [p]) := by
  refine ⟨?_, foldl_logWrite_eq msgs, fun buf p h => logWrite_full buf p h⟩
  rw [foldl_logWrite_eq msgs, List.length_drop]
  omega

theorem log_buffer_bounded_fifo_witness :
    maxLogLines ≤
      (["a0", "a1", "a2", "a3", "a4", "a5", "a6", "a7", "a8", "a9"] : List String).length ∧
    logWrite ["a0", "a1", "a2", "a3", "a4", "a5", "a6", "a7", "a8", "a9"] "b" =
      (["a0", "a1", "a2", "a3", "a4", "a5", "a6", "a7", "a8", "a9"] : List String).drop 1 ++
        ["b"] :=
  ⟨by decide,
   (log_buffer_bounded_fifo []).2.2
     ["a0", "a1", "a2", "a3", "a4", "a5", "a6", "a7", "a8", "a9"] "b" (by decide)⟩

end DVD

namespace DVD

lemma collideStep_events (g : Game) :
    (collideStep g).2.all (fun e => isBounceEvent e) = true := by
  have hx := (collideX_events g).1
  have hy := (collideY_events (collideX g).1).1
  unfold collideStep
  dsimp only
  rw [List.all_append]
  simp only [Bool.and_eq_true, List.all_eq_true] at hx hy ⊢
  refine ⟨fun e he => ?_, fun e he => ?_⟩
  · simp [isBounceEvent, hx e he]
  · simp [isBounceEvent, hy e he]

/-- Modelled from the spec (the ordering asserted by claim C4 and spec
section 4.2): a variant of Update that performs the edge-collision checks
and color advance before the keyboard input sampling of the same tick.
It exists only to be compared against the source-order Update. -/
def Update_specOrder (g : Game) (inp : Input) : Game × List LogEvent :=
  let g1 := integrateStep g
  let r2 := collideStep g1
  let r3 := fullscreenStep r2.1 inp
  let r4 := speedStep r3.1 inp
  (r4.1, r2.2 ++ r3.2 ++ r4.2)

/-- Concrete state that hits the left edge on the same tick in which the J
key is first pressed, separating the two orderings observably. -/
def c4State : Game :=
  ⟨1, 100, -1, 1, 3, 0, false, false, false, false, false, ⟨1/2, 10, 1/2⟩⟩

/-- C4 counterexample: with a left-edge hit and a J-key press in the same
tick, the source Update logs the speed change before the bounce (input is
sampled before the collision checks), while the order the claim asserts
would log the bounce first; the two event sequences differ. -/
theorem input_sampled_before_collision_counterexample :
    (Update c4State ⟨false, false, true, false⟩).2 =
      [.speedDecreased 3 (5/2), .bounceLeft 0 101 (5/6) (5/6) 1] ∧
    (Update_specOrder c4State ⟨false, false, true, false⟩).2 =
      [.bounceLeft 0 101 1 1 1, .speedDecreased 3 (5/2)] ∧
    (Update c4State ⟨false, false, true, false⟩).2 ≠
      (Update_specOrder c4State ⟨false, false, true, false⟩).2 := by
  have h1 : (Update c4State ⟨false, false, true, false⟩).2 =
      [.speedDecreased 3 (5/2), .bounceLeft 0 101 (5/6) (5/6) 1] := by
    norm_num [Update, integrateStep, fullscreenStep, speedStep, collideStep,
      collideX, collideY, changeColor, setFullscreen, decreaseSpeed,
      increaseSpeed, c4State, logoWidth, logoHeight, screenWidth, screenHeight,
      logoColors]
  have h2 : (Update_specOrder c4State ⟨false, false, true, false⟩).2 =
      [.bounceLeft 0 101 1 1 1, .speedDecreased 3 (5/2)] := by
    norm_num [Update_specOrder, integrateStep, fullscreenStep, speedStep,
      collideStep, collideX, collideY, changeColor, setFullscreen,
      decreaseSpeed, increaseSpeed, c4State, logoWidth, logoHeight,
      screenWidth, screenHeight, logoColors]
  refine ⟨h1, h2, ?_⟩
  rw [h1, h2]
  simp

/-- C4 amended: within each tick the source Update performs position
integration first, then samples the keyboard (fullscreen keys, then speed
keys), and only then runs the edge-collision checks, whose velocity
reflections and color advances act on the post-input state; consequently
every tick's log is input events followed by bounce events. -/
theorem update_block_order (g : Game) (i : Input) :
    ∃ es1 es2, (Update g i).2 = es1 ++ es2 ∧
      es1.all isInputEvent = true ∧
      es2.all (fun e => isBounceEvent e) = true ∧
      (Update g i).1 =
        (collideStep (speedStep (fullscreenStep (integrateStep g) i).1 i).1).1 := by
  refine ⟨(fullscreenStep (integrateStep g) i).2 ++
            (speedStep (fullscreenStep (integrateStep g) i).1 i).2,
          (collideX (speedStep (fullscreenStep (integrateStep g) i).1 i).1).2 ++
            (collideY (collideX (speedStep (fullscreenStep (integrateStep g) i).1 i).1).1).2,
          ?_, ?_, collideStep_events _, rfl⟩
  · exact updateEvents_eq g i
  · rw [List.all_append]
    simp [fullscreenStep_events, speedStep_events]

end DVD

namespace DVD

lemma input_events_no_bounce (es : List LogEvent) (h : es.all isInputEvent = true) :
    es.countP (fun e => isHorizontalBounce e) = 0 ∧
    es.countP (fun e => isVerticalBounce e) = 0 ∧
    es.countP (fun e => isBounceEvent e) = 0 := by
  simp only [List.all_eq_true] at h
  refine ⟨List.countP_eq_zero.mpr fun e he => ?_,
          List.countP_eq_zero.mpr fun e he => ?_,
          List.countP_eq_zero.mpr fun e he => ?_⟩ <;>
    (have hi := h e he
     cases e <;>
       simp_all [isInputEvent, isHorizontalBounce, isVerticalBounce, isBounceEvent])

lemma collideStep_summary (g : Game) (h : g.colorIndex < logoColors.length) :
    (collideStep g).2.countP (fun e => isHorizontalBounce e) ≤ 1 ∧
    (collideStep g).2.countP (fun e => isVerticalBounce e) ≤ 1 ∧
    (collideStep g).2.countP (fun e => isBounceEvent e) = (collideStep g).2.length ∧
    (collideStep g).2.length ≤ 2 ∧
    (collideStep g).1.colorIndex =
      (g.colorIndex + (collideStep g).2.length) % logoColors.length := by
  have h8 : logoColors.length = 8 := rfl
  rw [h8] at h
  unfold collideStep collideX collideY changeColor
  dsimp only
  repeat' split
  all_goals
    simp_all [isHorizontalBounce, isVerticalBounce, isBounceEvent, h8]
  all_goals omega

lemma updateEventsC_eq (g : Game) (i : Input) :
    (Update g i).2 =
      (fullscreenStep (integrateStep g) i).2 ++
      (speedStep (fullscreenStep (integrateStep g) i).1 i).2 ++
      (collideStep (speedStep (fullscreenStep (integrateStep g) i).1 i).1).2 := rfl

lemma updateStateC_eq (g : Game) (i : Input) :
    (Update g i).1 =
      (collideStep (speedStep (fullscreenStep (integrateStep g) i).1 i).1).1 := rfl

/-- C10: in every single tick at most one horizontal bounce (left or right,
never both) and at most one vertical bounce (top or bottom, never both)
occur, since each axis's two edge checks are mutually exclusive if/else-if
branches; every bounce log line corresponds to one color advance, so the
color index never advances more than twice per tick. -/
theorem at_most_two_bounces_per_tick (g : Game) (i : Input)
    (h : g.colorIndex < logoColors.length) :
    horizontalBounceCount (Update g i).2 ≤ 1 ∧
    verticalBounceCount (Update g i).2 ≤ 1 ∧
    bounceCount (Update g i).2 ≤ 2 ∧
    (Update g i).1.colorIndex =
      (g.colorIndex + bounceCount (Update g i).2) % logoColors.length := by
  have hf := fullscreenStep_preserves (integrateStep g) i
  have hs := speedStep_preserves (fullscreenStep (integrateStep g) i).1 i
  have hg3 : (speedStep (fullscreenStep (integrateStep g) i).1 i).1.colorIndex =
      g.colorIndex := by
    rw [hs.2.2.1, hf.2.2.2.2.2.1]
    rfl
  have hin1 := input_events_no_bounce _ (fullscreenStep_events (integrateStep g) i)
  have hin2 :=
    input_events_no_bounce _ (speedStep_events (fullscreenStep (integrateStep g) i).1 i)
  have hcs := collideStep_summary (speedStep (fullscreenStep (integrateStep g) i).1 i).1
    (by rw [hg3]; exact h)
  unfold horizontalBounceCount verticalBounceCount bounceCount
  rw [updateEventsC_eq, updateStateC_eq]
  simp only [List.countP_append, hin1.1, hin1.2.1, hin1.2.2, hin2.1, hin2.2.1,
    hin2.2.2, Nat.zero_add]
  refine ⟨hcs.1, hcs.2.1, le_trans (le_of_eq hcs.2.2.1) hcs.2.2.2.1, ?_⟩
  rw [hcs.2.2.1, hcs.2.2.2.2, hg3]

/-- Concrete mid-screen state used to instantiate the bounce-count
theorem. -/
def c10State : Game :=
  ⟨0, 0, -2, -2, 3, 5, false, false, false, false, false, ⟨1/2, 10, 1/2⟩⟩

theorem at_most_two_bounces_per_tick_witness :
    horizontalBounceCount (Update c10State ⟨false, false, false, false⟩).2 ≤ 1 ∧
    verticalBounceCount (Update c10State ⟨false, false, false, false⟩).2 ≤ 1 ∧
    bounceCount (Update c10State ⟨false, false, false, false⟩).2 ≤ 2 ∧
    (Update c10State ⟨false, false, false, false⟩).1.colorIndex =
      (c10State.colorIndex +
        bounceCount (Update c10State ⟨false, false, false, false⟩).2) %
        logoColors.length :=
  at_most_two_bounces_per_tick c10State ⟨false, false, false, false⟩ (by decide)

end DVD

namespace DVD

lemma collideX_left_cond (g : Game)
    (h : (collideX g).2.any isBounceLeftEv = true) : g.logoX ≤ 0 := by
  by_cases hx : g.logoX ≤ 0
  · exact hx
  · by_cases hx2 : g.logoX + logoWidth ≥ screenWidth
    · rw [collideX_right g hx hx2] at h
      simp [isBounceLeftEv] at h
    · rw [collideX_none g hx hx2] at h
      simp at h

lemma collideX_right_cond (g : Game)
    (h : (collideX g).2.any isBounceRightEv = true) :
    screenWidth ≤ g.logoX + logoWidth := by
  by_cases hx : g.logoX ≤ 0
  · rw [collideX_left g hx] at h
    simp [isBounceRightEv] at h
  · by_cases hx2 : g.logoX + logoWidth ≥ screenWidth
    · exact hx2
    · rw [collideX_none g hx hx2] at h
      simp at h

lemma collideY_top_cond (g : Game)
    (h : (collideY g).2.any isBounceTopEv = true) : g.logoY ≤ 0 := by
  by_cases hy : g.logoY ≤ 0
  · exact hy
  · by_cases hy2 : g.logoY + logoHeight ≥ screenHeight
    · rw [collideY_bottom g hy hy2] at h
      simp [isBounceTopEv] at h
    · rw [collideY_none g hy hy2] at h
      simp at h

lemma collideY_bottom_cond (g : Game)
    (h : (collideY g).2.any isBounceBottomEv = true) :
    screenHeight ≤ g.logoY + logoHeight := by
  by_cases hy : g.logoY ≤ 0
  · rw [collideY_top g hy] at h
    simp [isBounceBottomEv] at h
  · by_cases hy2 : g.logoY + logoHeight ≥ screenHeight
    · exact hy2
    · rw [collideY_none g hy hy2] at h
      simp at h

lemma collideX_no_vertical (g : Game) :
    (collideX g).2.any isBounceTopEv = false ∧
    (collideX g).2.any isBounceBottomEv = false := by
  by_cases hx : g.logoX ≤ 0
  · rw [collideX_left g hx]
    simp [isBounceTopEv, isBounceBottomEv]
  · by_cases hx2 : g.logoX + logoWidth ≥ screenWidth
    · rw [collideX_right g hx hx2]
      simp [isBounceTopEv, isBounceBottomEv]
    · rw [collideX_none g hx hx2]
      simp

lemma collideY_no_horizontal (g : Game) :
    (collideY g).2.any isBounceLeftEv = false ∧
    (collideY g).2.any isBounceRightEv = false := by
  by_cases hy : g.logoY ≤ 0
  · rw [collideY_top g hy]
    simp [isBounceLeftEv, isBounceRightEv]
  · by_cases hy2 : g.logoY + logoHeight ≥ screenHeight
    · rw [collideY_bottom g hy hy2]
      simp [isBounceLeftEv, isBounceRightEv]
    · rw [collideY_none g hy hy2]
      simp

lemma input_events_no_specific (es : List LogEvent)
    (h : es.all isInputEvent = true) :
    es.any isBounceLeftEv = false ∧ es.any isBounceRightEv = false ∧
    es.any isBounceTopEv = false ∧ es.any isBounceBottomEv = false := by
  simp only [List.all_eq_true] at h
  refine ⟨List.any_eq_false.mpr fun e he => ?_, List.any_eq_false.mpr fun e he => ?_,
          List.any_eq_false.mpr fun e he => ?_, List.any_eq_false.mpr fun e he => ?_⟩ <;>
    (have hi := h e he
     cases e <;>
       simp_all [isInputEvent, isBounceLeftEv, isBounceRightEv, isBounceTopEv,
         isBounceBottomEv])

end DVD

namespace DVD

lemma update_checkState_pos (g : Game) (i : Input) :
    (speedStep (fullscreenStep (integrateStep g) i).1 i).1.logoX =
      g.logoX + g.velocityX ∧
    (speedStep (fullscreenStep (integrateStep g) i).1 i).1.logoY =
      g.logoY + g.velocityY := by
  have hf := fullscreenStep_preserves (integrateStep g) i
  have hs := speedStep_preserves (fullscreenStep (integrateStep g) i).1 i
  constructor
  · rw [hs.1, hf.1]
    rfl
  · rw [hs.2.1, hf.2.1]
    rfl

lemma update_any_bounce (g : Game) (i : Input) :
    (Update g i).2.any isBounceLeftEv =
      (collideX (speedStep (fullscreenStep (integrateStep g) i).1 i).1).2.any
        isBounceLeftEv ∧
    (Update g i).2.any isBounceRightEv =
      (collideX (speedStep (fullscreenStep (integrateStep g) i).1 i).1).2.any
        isBounceRightEv ∧
    (Update g i).2.any isBounceTopEv =
      (collideY (collideX (speedStep (fullscreenStep (integrateStep g) i).1 i).1).1).2.any
        isBounceTopEv ∧
    (Update g i).2.any isBounceBottomEv =
      (collideY (collideX (speedStep (fullscreenStep (integrateStep g) i).1 i).1).1).2.any
        isBounceBottomEv := by
  have hi1 := input_events_no_specific _ (fullscreenStep_events (integrateStep g) i)
  have hi2 :=
    input_events_no_specific _ (speedStep_events (fullscreenStep (integrateStep g) i).1 i)
  have hxv := collideX_no_vertical (speedStep (fullscreenStep (integrateStep g) i).1 i).1
  have hyh := collideY_no_horizontal
    (collideX (speedStep (fullscreenStep (integrateStep g) i).1 i).1).1
  refine ⟨?_, ?_, ?_, ?_⟩ <;> rw [updateEvents_eq] <;>
    simp [List.any_append, hi1.1, hi1.2.1, hi1.2.2.1, hi1.2.2.2, hi2.1, hi2.2.1,
      hi2.2.2.1, hi2.2.2.2, hxv.1, hxv.2, hyh.1, hyh.2]

/-- C3 counterexample: at the corner state (0,0) with velocity (-1,-1) the
horizontal axis collides (a left-edge bounce is logged), yet after the
tick's correction the logo's bounding box starts at x = -1, outside
[0, screenWidth]: the code reflects velocity only and never clamps the
position back inside the bounds, even on the collided axis. -/
theorem collided_axis_outside_counterexample :
    (Update ⟨0, 300, -1, 1, 3, 0, false, false, false, false, false, ⟨1/2, 10, 1/2⟩⟩
        ⟨false, false, false, false⟩).2.any isBounceLeftEv = true ∧
    ¬ (0 ≤ (Update ⟨0, 300, -1, 1, 3, 0, false, false, false, false, false, ⟨1/2, 10, 1/2⟩⟩
        ⟨false, false, false, false⟩).1.logoX) := by
  constructor
  · norm_num [Update, integrateStep, fullscreenStep, speedStep, collideStep,
      collideX, collideY, changeColor, setFullscreen, logoWidth, logoHeight,
      screenWidth, screenHeight, isBounceLeftEv]
  · norm_num [Update, integrateStep, fullscreenStep, speedStep, collideStep,
      collideX, collideY, changeColor, setFullscreen, logoWidth, logoHeight,
      screenWidth, screenHeight]

/-- C3 amended: position is never clamped, so even a collided axis can end
the tick outside the bounds; what holds is the bounded overshoot: if the
bounding box was inside the screen on both axes at the start of the tick,
then on any axis that collided the box ends the tick past the violated edge
by at most that tick's displacement along that axis (and past the opposite
edge not at all), while velocity on that axis is reflected. -/
theorem collided_axis_overshoot_bounded (g : Game) (i : Input)
    (hx0 : 0 ≤ g.logoX) (hx1 : g.logoX + logoWidth ≤ screenWidth)
    (hy0 : 0 ≤ g.logoY) (hy1 : g.logoY + logoHeight ≤ screenHeight) :
    ((Update g i).2.any isBounceLeftEv = true →
      g.velocityX ≤ (Update g i).1.logoX ∧ (Update g i).1.logoX ≤ 0) ∧
    ((Update g i).2.any isBounceRightEv = true →
      screenWidth ≤ (Update g i).1.logoX + logoWidth ∧
      (Update g i).1.logoX + logoWidth ≤ screenWidth + g.velocityX) ∧
    ((Update g i).2.any isBounceTopEv = true →
      g.velocityY ≤ (Update g i).1.logoY ∧ (Update g i).1.logoY ≤ 0) ∧
    ((Update g i).2.any isBounceBottomEv = true →
      screenHeight ≤ (Update g i).1.logoY + logoHeight ∧
      (Update g i).1.logoY + logoHeight ≤ screenHeight + g.velocityY) := by
  have hpos := update_checkState_pos g i
  have hX := update_logoX g i
  have hY := update_logoY g i
  have hany := update_any_bounce g i
  refine ⟨fun h => ?_, fun h => ?_, fun h => ?_, fun h => ?_⟩
  · rw [hany.1] at h
    have hc := collideX_left_cond _ h
    rw [hpos.1] at hc
    rw [hX]
    constructor <;> linarith
  · rw [hany.2.1] at h
    have hc := collideX_right_cond _ h
    rw [hpos.1] at hc
    rw [hX]
    constructor <;> linarith
  · rw [hany.2.2.1] at h
    have hc := collideY_top_cond _ h
    rw [(collideX_position _).2.1, hpos.2] at hc
    rw [hY]
    constructor <;> linarith
  · rw [hany.2.2.2] at h
    have hc := collideY_bottom_cond _ h
    rw [(collideX_position _).2.1, hpos.2] at hc
    rw [hY]
    constructor <;> linarith

/-- Concrete in-bounds corner state used to instantiate the overshoot
theorem. -/
def c3State : Game :=
  ⟨0, 0, -1, -1, 3, 0, false, false, false, false, false, ⟨1/2, 10, 1/2⟩⟩

theorem collided_axis_overshoot_bounded_witness :
    ((Update c3State ⟨false, false, false, false⟩).2.any isBounceLeftEv = true →
      c3State.velocityX ≤ (Update c3State ⟨false, false, false, false⟩).1.logoX ∧
      (Update c3State ⟨false, false, false, false⟩).1.logoX ≤ 0) ∧
    ((Update c3State ⟨false, false, false, false⟩).2.any isBounceRightEv = true →
      screenWidth ≤ (Update c3State ⟨false, false, false, false⟩).1.logoX + logoWidth ∧
      (Update c3State ⟨false, false, false, false⟩).1.logoX + logoWidth ≤
        screenWidth + c3State.velocityX) ∧
    ((Update c3State ⟨false, false, false, false⟩).2.any isBounceTopEv = true →
      c3State.velocityY ≤ (Update c3State ⟨false, false, false, false⟩).1.logoY ∧
      (Update c3State ⟨false, false, false, false⟩).1.logoY ≤ 0) ∧
    ((Update c3State ⟨false, false, false, false⟩).2.any isBounceBottomEv = true →
      screenHeight ≤ (Update c3State ⟨false, false, false, false⟩).1.logoY + logoHeight ∧
      (Update c3State ⟨false, false, false, false⟩).1.logoY + logoHeight ≤
        screenHeight + c3State.velocityY) :=
  collided_axis_overshoot_bounded c3State ⟨false, false, false, false⟩
    (by norm_num [c3State]) (by norm_num [c3State, logoWidth, screenWidth])
    (by norm_num [c3State]) (by norm_num [c3State, logoHeight, screenHeight])

end DVD
